/-
Verification of the zonal aggregation and gap-filling engine of the `wbgt`
package (src/wbgt/functions/api.py and src/wbgt/functions/spatial.py).

The Python source is shallowly embedded:
* a 2D numpy float array with NaN markers becomes `Arr2 n m`, a function
  `Fin n → Fin m → Option ℚ` (`none` is the NaN marker, `some q` a finite
  value; the fill routine only ever tests NaN-ness and copies values, so
  values are modelled as exact rationals);
* `scipy.ndimage.distance_transform_edt(mask, return_indices=True)` is an
  external library call; it is modelled by its documented semantics: for each
  cell it yields the index of a closest non-masked cell under Euclidean
  distance in index space, deterministic ties resolved in row-major scan
  order.  When no non-masked cell exists the library yields some index of the
  array; since every value of an all-masked array is NaN, the value copied is
  NaN regardless of which index is produced, which the model renders by
  leaving the cell `none`;
* shapely boxes become `Box` (axis-aligned rational rectangles); `intersects`,
  `intersection(...).area` and `.area` of boxes are the closed-rectangle
  overlap test and the product of the clamped overlap lengths;
* `join_wbgt_to_geography` is embedded over an explicit region list (the
  Python function reads the region polygons from a shapefile on disk; the
  file's contents are the `regions` parameter here, restricted to rectangular
  geometries, which is the class of geometries the grid side of the source
  constructs).  Float arithmetic is modelled as exact rational arithmetic.
-/
import Mathlib

namespace Wbgt

/-! ## Gap filler: `fill_nan_with_nearest_2d` (api.py lines 151-165) -/

/-- A 2D field of floats with NaN markers: `none` is NaN. -/
abbrev Arr2 (n m : ℕ) := Fin n → Fin m → Option ℚ

/-- Squared Euclidean distance between two grid indices
(`distance_transform_edt` uses Euclidean distance in index space). -/
def sqDist {n m : ℕ} (i : Fin n) (j : Fin m) (p : Fin n × Fin m) : ℤ :=
  ((i : ℤ) - (p.1 : ℤ)) ^ 2 + ((j : ℤ) - (p.2 : ℤ)) ^ 2

/-- All cell indices in row-major scan order. -/
def allCells (n m : ℕ) : List (Fin n × Fin m) :=
  (List.finRange n).product (List.finRange m)

/-- The non-NaN cell indices of `a`, in row-major scan order
(the complement of the mask `np.isnan(arr)`). -/
def validCells {n m : ℕ} (a : Arr2 n m) : List (Fin n × Fin m) :=
  (allCells n m).filter (fun p => (a p.1 p.2).isSome)

/-- The feature transform of `ndimage.distance_transform_edt` at cell
`(i, j)`: a closest non-NaN cell (ties in row-major scan order), `none`
when the array has no non-NaN cell. -/
def nearestValid {n m : ℕ} (a : Arr2 n m) (i : Fin n) (j : Fin m) :
    Option (Fin n × Fin m) :=
  (validCells a).argmin (sqDist i j)

/-- `fill_nan_with_nearest_2d`: if the mask is empty the input array is
returned unchanged; otherwise every NaN cell receives the value of the
closest non-NaN cell (`filled[mask] = arr[tuple(indices[:, mask])]`).
In the all-NaN case the copied value is itself NaN (see header note). -/
def fill_nan_with_nearest_2d {n m : ℕ} (a : Arr2 n m) : Arr2 n m :=
  if (∀ i j, (a i j).isSome) then a
  else fun i j =>
    if (a i j).isNone then
      match nearestValid a i j with
      | some p => a p.1 p.2
      | none => none
    else a i j

/-- Example 2×2 array with a single NaN at (0,0) (spec §8 concrete fill
scenario shape). -/
def arrEx : Arr2 2 2 := fun i j => if i = 0 ∧ j = 0 then none else some 1

/-- Example 2×2 array that is entirely NaN. -/
def arrNaN : Arr2 2 2 := fun _ _ => none

/-! ## Time-aware wrapper: `fill_mrt_data` (api.py lines 167-211)

An xarray Dataset is modelled by the data the wrapper touches: the
`valid_time` coordinate, the target variable's per-time 2D slices (aligned
positionally with `valid_time`, assumed distinct so that the source's
value-based `sel(valid_time=t)` coincides with positional iteration),
the spatial coordinate arrays, and the remaining variables. -/

/-- Model of the xarray Dataset as seen by `fill_mrt_data`. -/
structure Dataset (n m : ℕ) where
  valid_time : List ℤ
  latitude : List ℚ
  longitude : List ℚ
  var : List (Arr2 n m)
  others : List (String × List (Arr2 n m))

/-- The loop body of `fill_mrt_data`: each time slice is selected, filled
with `fill_nan_with_nearest_2d`, and the filled slices are collected in the
original order (then concatenated along `valid_time`). -/
def fillSlices {n m : ℕ} : List (Arr2 n m) → List (Arr2 n m)
  | [] => []
  | a :: rest => fill_nan_with_nearest_2d a :: fillSlices rest

/-- `fill_mrt_data`: the dataset is copied and the named variable replaced
by its per-slice-filled version; every other variable and every coordinate
is taken over from the input copy. -/
def fill_mrt_data {n m : ℕ} (ds : Dataset n m) : Dataset n m :=
  { ds with var := fillSlices ds.var }

/-! ## Zonal aggregator: `join_wbgt_to_geography` (spatial.py lines 7-109)

The regions the source reads from the shapefile are a parameter here; their
geometries are restricted to axis-aligned rectangles (the geometry class the
grid side of the source constructs with `shapely.geometry.box`).  Floats are
exact rationals.  `geo_type` only selects which shapefile is read and is
dropped with the file I/O. -/

/-- A shapely `box(minx, miny, maxx, maxy)`: a closed axis-aligned
rectangle. -/
structure Box where
  minx : ℚ
  miny : ℚ
  maxx : ℚ
  maxy : ℚ
deriving DecidableEq

/-- shapely `a.intersects(b)` for boxes: the closed rectangles share a
point (touching along an edge or corner counts). -/
def Box.intersectsB (a b : Box) : Bool :=
  decide (a.minx ≤ b.maxx ∧ b.minx ≤ a.maxx ∧ a.miny ≤ b.maxy ∧ b.miny ≤ a.maxy)

/-- shapely `a.intersection(b).is_empty` for boxes: the intersection of two
closed rectangles is empty exactly when they do not intersect (a touching
contact yields a nonempty zero-area geometry). -/
def interEmpty (a b : Box) : Bool :=
  !(Box.intersectsB a b)

/-- shapely `.area` of a box in the coordinates it is stored in — for the
source these are EPSG:4326 geographic degrees. -/
def Box.area (a : Box) : ℚ :=
  (a.maxx - a.minx) * (a.maxy - a.miny)

/-- shapely `a.intersection(b).area` for boxes: product of the clamped
overlap lengths along each axis. -/
def interArea (a b : Box) : ℚ :=
  max 0 (min a.maxx b.maxx - max a.minx b.minx) *
    max 0 (min a.maxy b.maxy - max a.miny b.miny)

/-- The gridded input: 1D cell-center coordinate arrays and the value
matrix (row `i` belongs to `lats[i]`, column `j` to `lons[j]`; the source
indexes `max_wbgt.values[i, j]`, so shapes are assumed consistent). -/
structure GridInput where
  lats : List ℚ
  lons : List ℚ
  vals : List (List ℚ)

/-- One region row of the shapefile GeoDataFrame: its identifier
(`GEOID` when available, else the row index) and its geometry. -/
structure Region where
  rid : ℕ
  geom : Box
deriving DecidableEq

/-- One output row: region identifier, aggregated value (`none` models the
`np.nan` written when the total weight is not positive), and the original
geographic-CRS geometry. -/
structure AggRecord (K : Type _) where
  region_id : ℕ
  wbgt : Option K
  geometry : Box
deriving DecidableEq

/-- The cell rectangle for center `(lat, lon)` and spacing `(dlat, dlon)`:
`box(lon - dlon/2, lat - dlat/2, lon + dlon/2, lat + dlat/2)`. -/
def cellBox (lat lon dlat dlon : ℚ) : Box :=
  ⟨lon - dlon / 2, lat - dlat / 2, lon + dlon / 2, lat + dlat / 2⟩

/-- The double loop of spatial.py lines 69-73: one `(polygon, value)` pair
per grid cell, rows outer, columns inner. -/
def cellsOf (g : GridInput) (dlat dlon : ℚ) : List (Box × ℚ) :=
  g.lats.enum.flatMap (fun il =>
    g.lons.enum.map (fun jl =>
      (cellBox il.2 jl.2 dlat dlon, (g.vals.getD il.1 []).getD jl.1 0)))

/-- The per-region loop body (spatial.py lines 82-106): filter the cells
intersecting the region; skip the region entirely when none do; otherwise
accumulate `(total_weight, weighted_sum)`, adding
`intersection.area / cell.area` for every nonempty intersection, and emit
the record, with `np.nan` (here `none`) when `total_weight` is not
positive.

Modeling caveat: the weight division is total ℚ division, which is `0` at
a zero denominator, whereas Python float division raises
`ZeroDivisionError` when `cell.geometry.area == 0.0` (degenerate cells
arise when the first two entries of an axis coincide, making the inferred
spacing 0).  The embedding therefore does not model that error path, and
no theorem below relies on the behaviour of zero-area cells: every claim
settled against this definition is exercised only on grids whose first
two axis entries differ. -/
def regionRecord (cells : List (Box × ℚ)) (r : Region) : Option (AggRecord ℚ) :=
  let intersecting := cells.filter (fun c => Box.intersectsB c.1 r.geom)
  if intersecting.isEmpty then none
  else
    let acc := intersecting.foldl
      (fun (acc : ℚ × ℚ) c =>
        if interEmpty c.1 r.geom then acc
        else (acc.1 + interArea c.1 r.geom / Box.area c.1,
              acc.2 + c.2 * (interArea c.1 r.geom / Box.area c.1)))
      (0, 0)
    some ⟨r.rid, if 0 < acc.1 then some (acc.2 / acc.1) else none, r.geom⟩

/-- `join_wbgt_to_geography`: spacing checks (a `ValueError` when an axis
has fewer than two entries), spacing inferred from the first two entries of
each axis, then one pass over the regions. -/
def join_wbgt_to_geography (g : GridInput) (regions : List Region) :
    Except String (List (AggRecord ℚ)) :=
  if g.lats.length ≤ 1 then
    Except.error
      "Latitude coordinate must have more than one value to determine cell size."
  else if g.lons.length ≤ 1 then
    Except.error
      "Longitude coordinate must have more than one value to determine cell size."
  else
    let dlat := |g.lats.getD 1 0 - g.lats.getD 0 0|
    let dlon := |g.lons.getD 1 0 - g.lons.getD 0 0|
    Except.ok (regions.filterMap (regionRecord (cellsOf g dlat dlon)))

/-- The grid-cell list `join_wbgt_to_geography` works on (spacing from the
first two entries of each axis). -/
def gridCells (g : GridInput) : List (Box × ℚ) :=
  cellsOf g |g.lats.getD 1 0 - g.lats.getD 0 0| |g.lons.getD 1 0 - g.lons.getD 0 0|

/-- Spec formula: the weight of cell `c` for region `reg` — the fraction
of the cell's area inside the region, `intersection_area / cell_area`. -/
def cellWeight (c reg : Box) : ℚ :=
  interArea c reg / Box.area c

/-- The cells whose rectangle intersects the region. -/
def intersectingCells (cells : List (Box × ℚ)) (reg : Box) : List (Box × ℚ) :=
  cells.filter (fun c => Box.intersectsB c.1 reg)

/-- Spec formula: `Σ(weight)` over intersecting cells. -/
def totalWeight (cells : List (Box × ℚ)) (reg : Box) : ℚ :=
  ((intersectingCells cells reg).map (fun c => cellWeight c.1 reg)).sum

/-- Spec formula: `Σ(cell_value * weight)` over intersecting cells. -/
def weightedSum (cells : List (Box × ℚ)) (reg : Box) : ℚ :=
  ((intersectingCells cells reg).map (fun c => c.2 * cellWeight c.1 reg)).sum

/-- Spec §8 concrete grid: cell centers at latitudes 0,1 and longitudes
0,1 (degrees), values `[[10,20],[30,40]]`. -/
def gridC7 : GridInput :=
  ⟨[0, 1], [0, 1], [[10, 20], [30, 40]]⟩

/-- Region covering exactly the two cells at longitude 1 of `gridC7`. -/
def regionC7 : Region :=
  ⟨0, ⟨1/2, -1/2, 3/2, 3/2⟩⟩

/-- Region touching `gridC7` only along the grid edge `x = 3/2`: it
intersects the longitude-1 cells with zero intersection area. -/
def regionTouch : Region :=
  ⟨0, ⟨3/2, -1/2, 2, 3/2⟩⟩

/-- A grid with non-uniformly spaced latitudes 0, 1, 3. -/
def gridNU : GridInput :=
  ⟨[0, 1, 3], [0, 1], [[5, 5], [5, 5], [5, 5]]⟩

/-- Region covering every cell rectangle of `gridNU`. -/
def regionNU : Region :=
  ⟨0, ⟨-1/2, -1/2, 3/2, 7/2⟩⟩

/-- Grid across the equator: cell centers at latitudes -15, 15 and
longitudes 0, 30 (degrees); the bottom row holds 0, the top row 1. -/
def gridC1 : GridInput :=
  ⟨[-15, 15], [0, 30], [[0, 0], [1, 1]]⟩

/-- Region covering the bottom cell row of `gridC1` entirely and the top
row up to latitude 15° (half of it in degrees, but less than half of its
true surface area). -/
def regionC1 : Region :=
  ⟨0, ⟨-15, -30, 45, 15⟩⟩

/-! ## Projection-parametric pipeline (for claim C1)

Modelled from the spec: spec §4.2 steps 2 and 4 require reprojecting both
the cell rectangles and the region polygons into a planar equal-area
coordinate system before computing any intersection area or cell area; no
such reprojection exists in the source, so the spec-described pipeline is
modelled here, parameterized by a coordinatewise projection `(px, py)`.
With `px = py = id` (coordinates kept in geographic degrees) it reproduces
the source pipeline; with the Lambert cylindrical equal-area map
`(x, y) ↦ (x, sin (y·π/180))` it is the spec-described equal-area pipeline.
Every planar equal-area projection yields the same weights — all areas are
a fixed constant multiple of true surface areas, and the constant cancels
in `intersection_area / cell_area` — so the Lambert choice is without loss
of generality.  Output geometries stay in the original geographic CRS
(spec §4.2 step 7). -/

/-- A box in projected planar coordinates. -/
structure PBox (K : Type _) where
  minx : K
  miny : K
  maxx : K
  maxy : K

/-- Coordinatewise projection of a geographic box. -/
def projBox {K : Type _} (px py : ℚ → K) (b : Box) : PBox K :=
  ⟨px b.minx, py b.miny, px b.maxx, py b.maxy⟩

/-- Closed-rectangle intersection test in the projected plane. -/
def PBox.intersectsB {K : Type _} [LinearOrder K] (a b : PBox K) : Bool :=
  decide (a.minx ≤ b.maxx ∧ b.minx ≤ a.maxx ∧ a.miny ≤ b.maxy ∧ b.miny ≤ a.maxy)

/-- Emptiness of the intersection of two closed projected rectangles. -/
def pInterEmpty {K : Type _} [LinearOrder K] (a b : PBox K) : Bool :=
  !(PBox.intersectsB a b)

/-- Planar area of a projected box. -/
def PBox.areaP {K : Type _} [LinearOrderedField K] (a : PBox K) : K :=
  (a.maxx - a.minx) * (a.maxy - a.miny)

/-- Planar intersection area of two projected boxes. -/
def pInterArea {K : Type _} [LinearOrderedField K] (a b : PBox K) : K :=
  max 0 (min a.maxx b.maxx - max a.minx b.minx) *
    max 0 (min a.maxy b.maxy - max a.miny b.miny)

/-- The per-region step of the projected pipeline: like `regionRecord`,
with every geometric predicate and every area evaluated on the projected
boxes; the emitted geometry is the original one. -/
def projRegionRecord {K : Type _} [LinearOrderedField K] (px py : ℚ → K)
    (cells : List (Box × ℚ)) (r : Region) : Option (AggRecord K) :=
  let rp := projBox px py r.geom
  let intersecting := cells.filter
    (fun c => PBox.intersectsB (projBox px py c.1) rp)
  if intersecting.isEmpty then none
  else
    let acc := intersecting.foldl
      (fun (acc : K × K) c =>
        if pInterEmpty (projBox px py c.1) rp then acc
        else (acc.1 + pInterArea (projBox px py c.1) rp /
                PBox.areaP (projBox px py c.1),
              acc.2 + (c.2 : K) * (pInterArea (projBox px py c.1) rp /
                PBox.areaP (projBox px py c.1))))
      (0, 0)
    some ⟨r.rid, if 0 < acc.1 then some (acc.2 / acc.1) else none, r.geom⟩

/-- The aggregation pipeline with all areas computed in the plane image of
the projection `(px, py)`. -/
def joinProj {K : Type _} [LinearOrderedField K] (px py : ℚ → K)
    (g : GridInput) (regions : List Region) :
    Except String (List (AggRecord K)) :=
  if g.lats.length ≤ 1 then
    Except.error
      "Latitude coordinate must have more than one value to determine cell size."
  else if g.lons.length ≤ 1 then
    Except.error
      "Longitude coordinate must have more than one value to determine cell size."
  else
    let dlat := |g.lats.getD 1 0 - g.lats.getD 0 0|
    let dlon := |g.lons.getD 1 0 - g.lons.getD 0 0|
    Except.ok (regions.filterMap (projRegionRecord px py (cellsOf g dlat dlon)))

/-- Horizontal leg of the Lambert cylindrical equal-area projection
(longitude degrees kept as the abscissa; a constant horizontal scale
cancels from every weight). -/
noncomputable def pxEA (x : ℚ) : ℝ := (x : ℝ)

/-- Vertical leg of the Lambert cylindrical equal-area projection: the
sine of the latitude, making planar areas proportional to true spherical
surface areas. -/
noncomputable def pyEA (y : ℚ) : ℝ := Real.sin ((y : ℝ) * Real.pi / 180)

/-- Modelled from the spec: the aggregation pipeline computing every
intersection area and cell area in a planar equal-area coordinate system
(spec §4.2 steps 2 and 4) — absent from the source, which computes areas
in geographic degrees. -/
noncomputable def joinEA (g : GridInput) (regions : List Region) :
    Except String (List (AggRecord ℝ)) :=
  joinProj pxEA pyEA g regions

/-- Every index pair lies in `allCells`. -/
theorem mem_allCells {n m : ℕ} (p : Fin n × Fin m) : p ∈ allCells n m := by
  obtain ⟨i, j⟩ := p
  exact List.mem_product.mpr ⟨List.mem_finRange i, List.mem_finRange j⟩

/-- Membership in `validCells` is exactly non-NaN-ness. -/
theorem mem_validCells {n m : ℕ} (a : Arr2 n m) (p : Fin n × Fin m) :
    p ∈ validCells a ↔ (a p.1 p.2).isSome := by
  constructor
  · intro h
    exact (List.mem_filter.mp h).2
  · intro h
    exact List.mem_filter.mpr ⟨mem_allCells p, h⟩

/-- A defined (non-NaN) cell is never altered by the fill. -/
theorem fill_eq_of_isSome {n m : ℕ} (a : Arr2 n m) (i : Fin n) (j : Fin m)
    (h : (a i j).isSome) : fill_nan_with_nearest_2d a i j = a i j := by
  unfold fill_nan_with_nearest_2d
  split
  · rfl
  · have hn : (a i j).isNone = false := by
      cases hc : a i j with
      | none => rw [hc] at h; simp at h
      | some v => simp
    simp [hn]

/-- `List.argmin` returns the scan-order-first minimizer: every element
strictly before the result in the list has strictly larger measure. -/
theorem argmin_first_min {α : Type _} (f : α → ℤ) :
    ∀ (l : List α) (p : α), l.argmin f = some p →
      ∃ l₁ l₂, l = l₁ ++ p :: l₂ ∧ ∀ q ∈ l₁, f p < f q := by
  intro l
  induction l with
  | nil => intro p hp; simp at hp
  | cons a t ih =>
    intro p hp
    rw [List.argmin_cons] at hp
    cases ht : t.argmin f with
    | none =>
      rw [ht] at hp
      simp only [Option.some.injEq] at hp
      subst hp
      exact ⟨[], t, rfl, fun q hq => absurd hq (List.not_mem_nil q)⟩
    | some c =>
      rw [ht] at hp
      dsimp only at hp
      by_cases hlt : f c < f a
      · rw [if_pos hlt] at hp
        simp only [Option.some.injEq] at hp
        subst hp
        obtain ⟨l₁, l₂, hsplit, hfirst⟩ := ih c ht
        refine ⟨a :: l₁, l₂, by rw [hsplit, List.cons_append], ?_⟩
        intro q hq
        rcases List.mem_cons.mp hq with hqa | hql
        · rw [hqa]; exact hlt
        · exact hfirst q hql
      · rw [if_neg hlt] at hp
        simp only [Option.some.injEq] at hp
        subst hp
        exact ⟨[], t, rfl, fun q hq => absurd hq (List.not_mem_nil q)⟩

/-- When some cell is defined, `nearestValid` finds a nearest defined cell:
the returned index is defined, at minimal squared Euclidean distance among
defined cells, and first in row-major scan order among the minimizers
(every defined cell scanned earlier lies strictly farther away). -/
theorem nearestValid_spec {n m : ℕ} (a : Arr2 n m) (i : Fin n) (j : Fin m)
    (hex : ∃ i₀ j₀, (a i₀ j₀).isSome) :
    ∃ p, nearestValid a i j = some p ∧ (a p.1 p.2).isSome ∧
      (∀ q, (a q.1 q.2).isSome → sqDist i j p ≤ sqDist i j q) ∧
      (∃ l₁ l₂, validCells a = l₁ ++ p :: l₂ ∧
        ∀ q ∈ l₁, sqDist i j p < sqDist i j q) := by
  obtain ⟨i₀, j₀, h₀⟩ := hex
  have hne : validCells a ≠ [] := by
    intro hnil
    have := (mem_validCells a (i₀, j₀)).mpr h₀
    rw [hnil] at this
    exact List.not_mem_nil _ this
  cases harg : nearestValid a i j with
  | none =>
    exact absurd (List.argmin_eq_none.mp harg) hne
  | some p =>
    have hmem : p ∈ (validCells a).argmin (sqDist i j) := harg
    refine ⟨p, rfl, (mem_validCells a p).mp (List.argmin_mem hmem), ?_, ?_⟩
    · intro q hq
      exact List.le_of_mem_argmin ((mem_validCells a q).mpr hq) hmem
    · exact argmin_first_min (sqDist i j) (validCells a) p harg

/-- Fill totality core: with at least one defined cell, every cell of the
filled array is defined, and a missing cell receives the value of the
nearest defined cell. -/
theorem fill_isSome {n m : ℕ} (a : Arr2 n m)
    (hex : ∃ i₀ j₀, (a i₀ j₀).isSome) (i : Fin n) (j : Fin m) :
    (fill_nan_with_nearest_2d a i j).isSome := by
  unfold fill_nan_with_nearest_2d
  split
  · next h => exact h i j
  · dsimp only
    cases hc : a i j with
    | some v => simp [hc]
    | none =>
      obtain ⟨p, hp, hdef, _, _⟩ := nearestValid_spec a i j hex
      simp [hc, hp, hdef]

/-- On an array with no NaN at all, the fill is the identity (first branch
of the source: `if not mask.any(): return arr`). -/
theorem fill_of_noNan {n m : ℕ} (a : Arr2 n m)
    (h : ∀ i j, (a i j).isSome) : fill_nan_with_nearest_2d a = a := by
  unfold fill_nan_with_nearest_2d
  exact if_pos h

/-- On an entirely-NaN array, the fill returns the array unchanged (each
copied value is itself NaN). -/
theorem fill_of_allNan {n m : ℕ} (a : Arr2 n m)
    (h : ∀ i j, a i j = none) : fill_nan_with_nearest_2d a = a := by
  have hval : validCells a = [] := by
    unfold validCells
    rw [List.filter_eq_nil_iff]
    intro p _
    simp [h p.1 p.2]
  unfold fill_nan_with_nearest_2d
  split
  · rfl
  · funext i j
    have : nearestValid a i j = none := by
      unfold nearestValid
      rw [hval]
      exact List.argmin_nil _
    simp [h i j, this]

/-- The value the fill writes into a missing cell is the value at the index
delivered by the feature transform. -/
theorem fill_at_missing {n m : ℕ} (a : Arr2 n m) (i : Fin n) (j : Fin m)
    (hmiss : a i j = none) (p : Fin n × Fin m)
    (hp : nearestValid a i j = some p) :
    fill_nan_with_nearest_2d a i j = a p.1 p.2 := by
  unfold fill_nan_with_nearest_2d
  rw [if_neg]
  · simp [hmiss, hp]
  · intro hall
    have := hall i j
    rw [hmiss] at this
    simp at this

/-- The fill is idempotent (helper for the claim theorem). -/
theorem fill_fill {n m : ℕ} (a : Arr2 n m) :
    fill_nan_with_nearest_2d (fill_nan_with_nearest_2d a) =
      fill_nan_with_nearest_2d a := by
  by_cases hall : ∀ i j, (a i j).isSome
  · rw [fill_of_noNan a hall]
    exact fill_of_noNan a hall
  · by_cases hex : ∃ i₀ j₀, (a i₀ j₀).isSome
    · exact fill_of_noNan _ (fun i j => fill_isSome a hex i j)
    · have hnone : ∀ i j, a i j = none := by
        intro i j
        cases hc : a i j with
        | none => rfl
        | some v => exact absurd ⟨i, j, by simp [hc]⟩ hex
      rw [fill_of_allNan a hnone]
      exact fill_of_allNan a hnone

/-- C4 (counterexample): on an entirely-missing 2×2 field the gap filler
does not report any error — the embedded `fill_nan_with_nearest_2d` is a
total function with no error outcome — and it returns the field unchanged,
its cells still missing.  This refutes the claim that an
`UnfillableFieldError` is reported instead of returning a field with
still-missing values. -/
theorem fill_allNaN_returns_still_missing :
    fill_nan_with_nearest_2d arrNaN = arrNaN ∧
      fill_nan_with_nearest_2d arrNaN 0 0 = none := by
  have h : fill_nan_with_nearest_2d arrNaN = arrNaN :=
    fill_of_allNan arrNaN (fun _ _ => rfl)
  exact ⟨h, by rw [h]; rfl⟩

/-- C4 (amended): invoked on a field in which every cell is missing, the
gap filler raises no error and returns the field unchanged — every cell of
the result is still missing. -/
theorem fill_allNaN_noop {n m : ℕ} (a : Arr2 n m)
    (h : ∀ i j, a i j = none) :
    fill_nan_with_nearest_2d a = a ∧
      ∀ i j, fill_nan_with_nearest_2d a i j = none := by
  have heq := fill_of_allNan a h
  exact ⟨heq, fun i j => by rw [heq]; exact h i j⟩

/-- Witness for C4 (amended) at the concrete all-NaN 2×2 field. -/
theorem fill_allNaN_noop_witness :
    fill_nan_with_nearest_2d arrNaN = arrNaN ∧
      ∀ i j, fill_nan_with_nearest_2d arrNaN i j = none :=
  fill_allNaN_noop arrNaN (fun _ _ => rfl)

/-- C5: on a field with at least one non-missing value, the filled field
has no missing marker, and each missing cell receives the value of a
non-missing cell at minimal squared Euclidean index distance; among the
minimizers the chosen cell is the first in the row-major scan order of the
distance transform (all non-missing cells listed before it are strictly
farther). -/
theorem fill_totality_and_nearest {n m : ℕ} (a : Arr2 n m)
    (hex : ∃ i₀ j₀, (a i₀ j₀).isSome) :
    (∀ i j, (fill_nan_with_nearest_2d a i j).isSome) ∧
      ∀ i j, a i j = none →
        ∃ p : Fin n × Fin m, (a p.1 p.2).isSome ∧
          (∀ q, (a q.1 q.2).isSome → sqDist i j p ≤ sqDist i j q) ∧
          (∃ l₁ l₂, validCells a = l₁ ++ p :: l₂ ∧
            ∀ q ∈ l₁, sqDist i j p < sqDist i j q) ∧
          fill_nan_with_nearest_2d a i j = a p.1 p.2 := by
  refine ⟨fill_isSome a hex, ?_⟩
  intro i j hmiss
  obtain ⟨p, hp, hdef, hmin, hfirst⟩ := nearestValid_spec a i j hex
  exact ⟨p, hdef, hmin, hfirst, fill_at_missing a i j hmiss p hp⟩

/-- Witness for C5 at the concrete 2×2 field with one NaN at (0,0). -/
theorem fill_totality_and_nearest_witness :
    (∃ i₀ j₀ : Fin 2, (arrEx i₀ j₀).isSome) ∧
      ((∀ i j, (fill_nan_with_nearest_2d arrEx i j).isSome) ∧
        ∀ i j, arrEx i j = none →
          ∃ p : Fin 2 × Fin 2, (arrEx p.1 p.2).isSome ∧
            (∀ q, (arrEx q.1 q.2).isSome → sqDist i j p ≤ sqDist i j q) ∧
            (∃ l₁ l₂, validCells arrEx = l₁ ++ p :: l₂ ∧
              ∀ q ∈ l₁, sqDist i j p < sqDist i j q) ∧
            fill_nan_with_nearest_2d arrEx i j = arrEx p.1 p.2) :=
  ⟨by decide, fill_totality_and_nearest arrEx (by decide)⟩

/-- C6: the gap filler is idempotent on every field, and on a field with
no missing marker it returns the input exactly. -/
theorem fill_idempotent_and_noop {n m : ℕ} (a : Arr2 n m) :
    fill_nan_with_nearest_2d (fill_nan_with_nearest_2d a) =
        fill_nan_with_nearest_2d a ∧
      ((∀ i j, (a i j).isSome) → fill_nan_with_nearest_2d a = a) :=
  ⟨fill_fill a, fill_of_noNan a⟩

/-- Witness for C6 at a concrete clean 2×2 field. -/
theorem fill_idempotent_and_noop_witness :
    fill_nan_with_nearest_2d (fill_nan_with_nearest_2d arrEx) =
        fill_nan_with_nearest_2d arrEx ∧
      fill_nan_with_nearest_2d (fun _ _ => some 3 : Arr2 2 2) =
        (fun _ _ => some 3 : Arr2 2 2) :=
  ⟨(fill_idempotent_and_noop arrEx).1,
    (fill_idempotent_and_noop (fun _ _ => some 3 : Arr2 2 2)).2 (by decide)⟩

/-- C10: gap filling never alters a defined cell: wherever the input is
non-missing, the filled field equals the input. -/
theorem fill_preserves_defined {n m : ℕ} (a : Arr2 n m) (i : Fin n)
    (j : Fin m) (v : ℚ) (h : a i j = some v) :
    fill_nan_with_nearest_2d a i j = some v := by
  rw [fill_eq_of_isSome a i j (by simp [h])]
  exact h

/-- Witness for C10 at the concrete 2×2 field with one NaN. -/
theorem fill_preserves_defined_witness :
    arrEx 1 1 = some 1 ∧ fill_nan_with_nearest_2d arrEx 1 1 = some 1 :=
  ⟨by decide, fill_preserves_defined arrEx 1 1 1 (by decide)⟩

/-- `fillSlices` is exactly an order-preserving per-slice map of the 2D
fill. -/
theorem fillSlices_eq_map {n m : ℕ} (l : List (Arr2 n m)) :
    fillSlices l = l.map fill_nan_with_nearest_2d := by
  induction l with
  | nil => rfl
  | cons a rest ih => simp [fillSlices, ih]

/-- C9: with a time axis present, the variable is filled slice by slice —
the output slice list is the elementwise image of the input slice list
under the 2D fill, in the original order (so no filled slice depends on any
other slice) — and the time coordinate, the spatial coordinates and all
other variables are unchanged. -/
theorem fill_mrt_per_slice {n m : ℕ} (ds : Dataset n m) :
    (fill_mrt_data ds).var = ds.var.map fill_nan_with_nearest_2d ∧
      (fill_mrt_data ds).valid_time = ds.valid_time ∧
      (fill_mrt_data ds).latitude = ds.latitude ∧
      (fill_mrt_data ds).longitude = ds.longitude ∧
      (fill_mrt_data ds).others = ds.others :=
  ⟨by simp [fill_mrt_data, fillSlices_eq_map], rfl, rfl, rfl, rfl⟩

/-! ### Zonal aggregator lemmas -/

/-- Evaluating the accumulation loop of `regionRecord` on a list of cells
that all intersect the region: the guard never fires and the fold is the
pair of spec sums. -/
theorem foldl_weights (reg : Box) :
    ∀ l : List (Box × ℚ), (∀ c ∈ l, Box.intersectsB c.1 reg = true) →
      ∀ x y : ℚ,
        l.foldl
          (fun (acc : ℚ × ℚ) c =>
            if interEmpty c.1 reg then acc
            else (acc.1 + interArea c.1 reg / Box.area c.1,
                  acc.2 + c.2 * (interArea c.1 reg / Box.area c.1)))
          (x, y) =
        (x + (l.map (fun c => cellWeight c.1 reg)).sum,
         y + (l.map (fun c => c.2 * cellWeight c.1 reg)).sum) := by
  intro l
  induction l with
  | nil => intro _ x y; simp
  | cons c t ih =>
    intro h x y
    have hc : Box.intersectsB c.1 reg = true := h c (List.mem_cons_self c t)
    have hne : interEmpty c.1 reg = false := by simp [interEmpty, hc]
    rw [List.foldl_cons, if_neg (by simp [hne])]
    rw [ih (fun d hd => h d (List.mem_cons_of_mem c hd))]
    simp only [List.map_cons, List.sum_cons, cellWeight]
    exact Prod.ext (by ring) (by ring)

/-- `regionRecord` in terms of the spec sums: skip when no cell
intersects, otherwise emit the record whose value is
`Σ(value·weight)/Σ(weight)` when `Σ(weight) > 0` and NaN (`none`)
otherwise. -/
theorem regionRecord_eq (cells : List (Box × ℚ)) (r : Region) :
    regionRecord cells r =
      if (intersectingCells cells r.geom).isEmpty then none
      else some ⟨r.rid,
        if 0 < totalWeight cells r.geom then
          some (weightedSum cells r.geom / totalWeight cells r.geom)
        else none, r.geom⟩ := by
  unfold regionRecord
  have hall : ∀ c ∈ cells.filter (fun c => Box.intersectsB c.1 r.geom),
      Box.intersectsB c.1 r.geom = true :=
    fun c hc => (List.mem_filter.mp hc).2
  by_cases he : (cells.filter (fun c => Box.intersectsB c.1 r.geom)).isEmpty
  · simp only [he, if_true]
    rw [if_pos]
    exact (by simpa [intersectingCells] using he)
  · rw [if_neg (by simpa using he), if_neg (by simpa [intersectingCells] using he)]
    rw [foldl_weights r.geom _ hall 0 0]
    simp only [zero_add]
    rfl

/-- `join_wbgt_to_geography` succeeds exactly on axes with at least two
entries, and then the output is the region-wise `filterMap` of
`regionRecord` over the grid cells. -/
theorem join_ok_iff (g : GridInput) (regions : List Region)
    (out : List (AggRecord ℚ)) :
    join_wbgt_to_geography g regions = Except.ok out ↔
      (1 < g.lats.length ∧ 1 < g.lons.length ∧
        out = regions.filterMap (regionRecord (gridCells g))) := by
  unfold join_wbgt_to_geography
  by_cases h1 : g.lats.length ≤ 1
  · rw [if_pos h1]
    constructor
    · intro h; cases h
    · intro ⟨ha, _, _⟩; omega
  · rw [if_neg h1]
    by_cases h2 : g.lons.length ≤ 1
    · rw [if_pos h2]
      constructor
      · intro h; cases h
      · intro ⟨_, hb, _⟩; omega
    · rw [if_neg h2]
      constructor
      · intro h
        refine ⟨by omega, by omega, ?_⟩
        cases h
        rfl
      · intro ⟨_, _, hout⟩
        rw [hout]
        rfl

/-- C2: whenever the aggregation succeeds, every input region whose total
intersecting-cell weight `Σ(intersection_area/cell_area)` is positive
contributes an output record whose value is
`Σ(cell_value·weight)/Σ(weight)` over the cells intersecting it. -/
theorem join_value_is_weighted_mean (g : GridInput) (regions : List Region)
    (out : List (AggRecord ℚ)) (r : Region)
    (hok : join_wbgt_to_geography g regions = Except.ok out)
    (hr : r ∈ regions)
    (hpos : 0 < totalWeight (gridCells g) r.geom) :
    (⟨r.rid, some (weightedSum (gridCells g) r.geom /
        totalWeight (gridCells g) r.geom), r.geom⟩ : AggRecord ℚ) ∈ out := by
  obtain ⟨-, -, hout⟩ := (join_ok_iff g regions out).mp hok
  rw [hout]
  refine List.mem_filterMap.mpr ⟨r, hr, ?_⟩
  rw [regionRecord_eq]
  have hne : ¬(intersectingCells (gridCells g) r.geom).isEmpty := by
    intro he
    rw [List.isEmpty_iff] at he
    rw [totalWeight, he] at hpos
    simp at hpos
  rw [if_neg hne, if_pos hpos]

/-- Witness for C2 on the spec §8 grid and the right-half region. -/
theorem join_value_is_weighted_mean_witness :
    (⟨regionC7.rid, some (weightedSum (gridCells gridC7) regionC7.geom /
        totalWeight (gridCells gridC7) regionC7.geom), regionC7.geom⟩ :
      AggRecord ℚ) ∈
      [(⟨0, some 30, ⟨1/2, -1/2, 3/2, 3/2⟩⟩ : AggRecord ℚ)] :=
  join_value_is_weighted_mean gridC7 [regionC7] _ regionC7
    (by norm_num [join_wbgt_to_geography, regionRecord, cellsOf, cellBox,
      gridC7, regionC7, Box.intersectsB, interEmpty, interArea, Box.area,
      List.enum, List.enumFrom, List.getD, List.filter, List.foldl,
      List.filterMap, List.isEmpty])
    (List.mem_singleton.mpr rfl)
    (by norm_num [totalWeight, intersectingCells, gridCells, cellsOf,
      cellBox, gridC7, regionC7, Box.intersectsB, cellWeight, interArea,
      Box.area, List.enum, List.enumFrom, List.getD, List.filter])

/-- C3 (counterexample): `regionTouch` meets the spec §8 grid only along
the line `x = 3/2`: its intersecting-cell list is nonempty but its total
weight is zero — and the aggregation does emit an output record for it,
carrying the NaN value (`none`).  This refutes the claim that such a
region produces no output record. -/
theorem zero_weight_region_emitted_nan :
    join_wbgt_to_geography gridC7 [regionTouch] =
        Except.ok [⟨0, none, ⟨3/2, -1/2, 2, 3/2⟩⟩] ∧
      totalWeight (gridCells gridC7) regionTouch.geom = 0 ∧
      intersectingCells (gridCells gridC7) regionTouch.geom ≠ [] := by
  refine ⟨?_, ?_, ?_⟩
  · norm_num [join_wbgt_to_geography, regionRecord, cellsOf, cellBox,
      gridC7, regionTouch, Box.intersectsB, interEmpty, interArea, Box.area,
      List.enum, List.enumFrom, List.getD, List.filter, List.foldl,
      List.filterMap, List.isEmpty]
  · norm_num [totalWeight, intersectingCells, gridCells, cellsOf, cellBox,
      gridC7, regionTouch, Box.intersectsB, cellWeight, interArea, Box.area,
      List.enum, List.enumFrom, List.getD, List.filter]
  · norm_num [intersectingCells, gridCells, cellsOf, cellBox, gridC7,
      regionTouch, Box.intersectsB, List.enum, List.enumFrom, List.getD,
      List.filter]
    exact List.cons_ne_nil _ _

/-- C3 (amended): on success the output is exactly the region-wise map in
which a region with no intersecting cell is dropped, while a region with
intersecting cells is always emitted — with the NaN value `none` when its
total weight is not positive. -/
theorem join_emission_characterization (g : GridInput)
    (regions : List Region) (out : List (AggRecord ℚ))
    (hok : join_wbgt_to_geography g regions = Except.ok out) :
    out = regions.filterMap (fun r =>
      if (intersectingCells (gridCells g) r.geom).isEmpty then none
      else some ⟨r.rid,
        if 0 < totalWeight (gridCells g) r.geom then
          some (weightedSum (gridCells g) r.geom /
            totalWeight (gridCells g) r.geom)
        else none, r.geom⟩) := by
  obtain ⟨-, -, hout⟩ := (join_ok_iff g regions out).mp hok
  rw [hout]
  exact List.filterMap_congr (fun r _ => regionRecord_eq (gridCells g) r)

/-- Witness for C3 (amended) on the edge-touching region. -/
theorem join_emission_characterization_witness :
    [(⟨0, none, ⟨3/2, -1/2, 2, 3/2⟩⟩ : AggRecord ℚ)] =
      [regionTouch].filterMap (fun r =>
        if (intersectingCells (gridCells gridC7) r.geom).isEmpty then none
        else some ⟨r.rid,
          if 0 < totalWeight (gridCells gridC7) r.geom then
            some (weightedSum (gridCells gridC7) r.geom /
              totalWeight (gridCells gridC7) r.geom)
          else none, r.geom⟩) :=
  join_emission_characterization gridC7 [regionTouch] _
    (by norm_num [join_wbgt_to_geography, regionRecord, cellsOf, cellBox,
      gridC7, regionTouch, Box.intersectsB, interEmpty, interArea, Box.area,
      List.enum, List.enumFrom, List.getD, List.filter, List.foldl,
      List.filterMap, List.isEmpty])

/-- C7: on the 2×2 grid with centers (0,0),(0,1),(1,0),(1,1), spacing 1°,
values `[[10,20],[30,40]]`, a region covering the longitude-1 cells fully
and the longitude-0 cells not at all aggregates to exactly 30. -/
theorem join_right_half_scenario :
    join_wbgt_to_geography gridC7 [regionC7] =
      Except.ok [⟨0, some 30, ⟨1/2, -1/2, 3/2, 3/2⟩⟩] := by
  norm_num [join_wbgt_to_geography, regionRecord, cellsOf, cellBox, gridC7,
    regionC7, Box.intersectsB, interEmpty, interArea, Box.area,
    List.enum, List.enumFrom, List.getD, List.filter, List.foldl,
    List.filterMap, List.isEmpty]

/-- C8 (counterexample): the latitude axis 0, 1, 3 is not uniformly
spaced, yet the aggregation raises no error and happily produces output
(with the spacing inferred from the first two entries only). -/
theorem join_accepts_nonuniform_grid :
    join_wbgt_to_geography gridNU [regionNU] =
        Except.ok [⟨0, some 5, ⟨-1/2, -1/2, 3/2, 7/2⟩⟩] ∧
      gridNU.lats.getD 2 0 - gridNU.lats.getD 1 0 ≠
        gridNU.lats.getD 1 0 - gridNU.lats.getD 0 0 := by
  constructor
  · norm_num [join_wbgt_to_geography, regionRecord, cellsOf, cellBox,
      gridNU, regionNU, Box.intersectsB, interEmpty, interArea, Box.area,
      List.enum, List.enumFrom, List.getD, List.filter, List.foldl,
      List.filterMap, List.isEmpty]
  · norm_num [gridNU, List.getD]

/-- C8 (amended): whenever the latitude axis or the longitude axis has
fewer than two entries the aggregation fails fast with the corresponding
`ValueError`, producing no output.  Uniform spacing is *not* among the
failure conditions (see the counterexample: a non-uniform axis is
accepted, the spacing being inferred from the first two entries alone).
Only this direction is stated: on axes with two or more entries whose
first two values coincide, the real program can also fail later with a
`ZeroDivisionError` on a zero-area cell, an error path outside this
embedding (see `regionRecord`). -/
theorem join_short_axis_error (g : GridInput) (regions : List Region)
    (h : g.lats.length ≤ 1 ∨ g.lons.length ≤ 1) :
    ∃ e, join_wbgt_to_geography g regions = Except.error e := by
  unfold join_wbgt_to_geography
  by_cases h1 : g.lats.length ≤ 1
  · rw [if_pos h1]
    exact ⟨_, rfl⟩
  · have h2 : g.lons.length ≤ 1 := h.resolve_left h1
    rw [if_neg h1, if_pos h2]
    exact ⟨_, rfl⟩

/-- Witness for C8 (amended) at a single-latitude grid. -/
theorem join_short_axis_error_witness :
    ((⟨[0], [0, 1], [[1, 2]]⟩ : GridInput).lats.length ≤ 1 ∨
        (⟨[0], [0, 1], [[1, 2]]⟩ : GridInput).lons.length ≤ 1) ∧
      ∃ e, join_wbgt_to_geography ⟨[0], [0, 1], [[1, 2]]⟩ [] =
        Except.error e :=
  ⟨Or.inl (by decide),
    join_short_axis_error ⟨[0], [0, 1], [[1, 2]]⟩ [] (Or.inl (by decide))⟩

/-! ### Identity projection reproduces the source pipeline -/

/-- Intersection tests agree under the identity projection. -/
theorem projId_intersects (a b : Box) :
    PBox.intersectsB (projBox id id a) (projBox id id b) =
      Box.intersectsB a b := by
  unfold PBox.intersectsB Box.intersectsB projBox
  rw [decide_eq_decide]
  rfl

/-- Intersection areas agree under the identity projection. -/
theorem projId_interArea (a b : Box) :
    pInterArea (projBox id id a) (projBox id id b) = interArea a b := rfl

/-- Cell areas agree under the identity projection. -/
theorem projId_area (a : Box) :
    PBox.areaP (projBox id id a) = Box.area a := rfl

/-- Emptiness tests agree under the identity projection. -/
theorem projId_interEmpty (a b : Box) :
    pInterEmpty (projBox id id a) (projBox id id b) = interEmpty a b := by
  unfold pInterEmpty interEmpty
  rw [projId_intersects]

/-- The per-region step of the projected pipeline at the identity
projection is the source's per-region step. -/
theorem projRegionRecord_id (cells : List (Box × ℚ)) (r : Region) :
    projRegionRecord (K := ℚ) id id cells r = regionRecord cells r := by
  dsimp only [projRegionRecord, regionRecord]
  have hpred : (fun c : Box × ℚ =>
      PBox.intersectsB (projBox id id c.1) (projBox id id r.geom)) =
      (fun c : Box × ℚ => Box.intersectsB c.1 r.geom) :=
    funext fun c => projId_intersects c.1 r.geom
  rw [hpred]
  have hfold : (fun (acc : ℚ × ℚ) (c : Box × ℚ) =>
      if pInterEmpty (projBox id id c.1) (projBox id id r.geom) then acc
      else (acc.1 + pInterArea (projBox id id c.1) (projBox id id r.geom) /
              PBox.areaP (projBox id id c.1),
            acc.2 + (RatCast.ratCast c.2 : ℚ) *
              (pInterArea (projBox id id c.1) (projBox id id r.geom) /
                PBox.areaP (projBox id id c.1)))) =
      (fun (acc : ℚ × ℚ) (c : Box × ℚ) =>
      if interEmpty c.1 r.geom then acc
      else (acc.1 + interArea c.1 r.geom / Box.area c.1,
            acc.2 + c.2 * (interArea c.1 r.geom / Box.area c.1))) := by
    funext acc c
    rw [projId_interEmpty, projId_interArea, projId_area]
    rfl
  rw [hfold]

/-- C1 (amended): the source aggregation equals the projection-parametric
pipeline at the **identity** projection — every intersection area and cell
area used for weighting is computed directly in geographic-degree
(EPSG:4326) coordinates; no reprojection into an equal-area system takes
place. -/
theorem join_eq_identity_projection (g : GridInput) (regions : List Region) :
    join_wbgt_to_geography g regions = joinProj (K := ℚ) id id g regions := by
  unfold join_wbgt_to_geography joinProj
  by_cases h1 : g.lats.length ≤ 1
  · rw [if_pos h1, if_pos h1]
  · rw [if_neg h1, if_neg h1]
    by_cases h2 : g.lons.length ≤ 1
    · rw [if_pos h2, if_pos h2]
    · rw [if_neg h2, if_neg h2]
      exact congrArg Except.ok
        (List.filterMap_congr
          (fun r _ => (projRegionRecord_id _ r).symm))

/-! ### Evaluating the equal-area pipeline on the `gridC1` scenario -/

/-- The accumulation loop of `projRegionRecord` over cells that all
intersect the projected region. -/
theorem pfoldl_weights {K : Type _} [LinearOrderedField K] (px py : ℚ → K)
    (r : Region) :
    ∀ l : List (Box × ℚ),
      (∀ c ∈ l, PBox.intersectsB (projBox px py c.1)
        (projBox px py r.geom) = true) →
      ∀ x y : K,
        l.foldl
          (fun (acc : K × K) c =>
            if pInterEmpty (projBox px py c.1) (projBox px py r.geom) then acc
            else (acc.1 + pInterArea (projBox px py c.1)
                    (projBox px py r.geom) / PBox.areaP (projBox px py c.1),
                  acc.2 + (c.2 : K) * (pInterArea (projBox px py c.1)
                    (projBox px py r.geom) / PBox.areaP (projBox px py c.1))))
          (x, y) =
        (x + (l.map (fun c => pInterArea (projBox px py c.1)
               (projBox px py r.geom) / PBox.areaP (projBox px py c.1))).sum,
         y + (l.map (fun c => (c.2 : K) * (pInterArea (projBox px py c.1)
               (projBox px py r.geom) /
                 PBox.areaP (projBox px py c.1)))).sum) := by
  intro l
  induction l with
  | nil => intro _ x y; simp
  | cons c t ih =>
    intro h x y
    have hc := h c (List.mem_cons_self c t)
    have hne : pInterEmpty (projBox px py c.1) (projBox px py r.geom) =
        false := by simp [pInterEmpty, hc]
    rw [List.foldl_cons, if_neg (by simp [hne])]
    rw [ih (fun d hd => h d (List.mem_cons_of_mem c hd))]
    simp only [List.map_cons, List.sum_cons]
    exact Prod.ext (by ring) (by ring)

/-- `projRegionRecord` on a cell list that entirely intersects the
region, in terms of the two spec sums in the projected plane. -/
theorem projRegionRecord_all_intersect {K : Type _} [LinearOrderedField K]
    (px py : ℚ → K) (cells : List (Box × ℚ)) (r : Region)
    (hall : ∀ c ∈ cells, PBox.intersectsB (projBox px py c.1)
      (projBox px py r.geom) = true) :
    projRegionRecord px py cells r =
      if cells.isEmpty then none
      else some ⟨r.rid,
        if 0 < (cells.map (fun c => pInterArea (projBox px py c.1)
            (projBox px py r.geom) / PBox.areaP (projBox px py c.1))).sum
        then some ((cells.map (fun c => (c.2 : K) *
            (pInterArea (projBox px py c.1) (projBox px py r.geom) /
              PBox.areaP (projBox px py c.1)))).sum /
          (cells.map (fun c => pInterArea (projBox px py c.1)
            (projBox px py r.geom) / PBox.areaP (projBox px py c.1))).sum)
        else none, r.geom⟩ := by
  dsimp only [projRegionRecord]
  rw [List.filter_eq_self.mpr hall]
  by_cases he : cells.isEmpty
  · rw [if_pos he, if_pos he]
  · rw [if_neg he, if_neg he]
    rw [pfoldl_weights px py r cells hall 0 0]
    simp only [zero_add]

/-- `pyEA` at 0°. -/
theorem pyEA_zero : pyEA 0 = 0 := by
  unfold pyEA
  norm_num

/-- `pyEA` at 30°. -/
theorem pyEA_thirty : pyEA 30 = 1/2 := by
  unfold pyEA
  rw [show ((30:ℚ):ℝ) * Real.pi / 180 = Real.pi / 6 by push_cast; ring,
    Real.sin_pi_div_six]

/-- `pyEA` at -30°. -/
theorem pyEA_neg_thirty : pyEA (-30) = -(1/2) := by
  unfold pyEA
  rw [show ((-30:ℚ):ℝ) * Real.pi / 180 = -(Real.pi / 6) by push_cast; ring,
    Real.sin_neg, Real.sin_pi_div_six]

/-- `pyEA` at 15°. -/
theorem pyEA_fifteen : pyEA 15 = Real.sin (Real.pi / 12) := by
  unfold pyEA
  rw [show ((15:ℚ):ℝ) * Real.pi / 180 = Real.pi / 12 by push_cast; ring]

/-- The sine of 15° is positive. -/
theorem sin15_pos : 0 < Real.sin (Real.pi / 12) :=
  Real.sin_pos_of_pos_of_lt_pi (by positivity) (by linarith [Real.pi_pos])

/-- The sine of 15° is below 1/2. -/
theorem sin15_lt_half : Real.sin (Real.pi / 12) < 1/2 := by
  have h1 : Real.sin (Real.pi / 12) < Real.pi / 12 := Real.sin_lt (by positivity)
  have h2 : Real.pi < 3.15 := Real.pi_lt_d2
  linarith

/-- The sine of 15° is not 1/4 (else `√3 = 7/4`, i.e. `3 = 49/16`). -/
theorem sin15_ne_quarter : Real.sin (Real.pi / 12) ≠ 1/4 := by
  intro h
  have hsq := Real.sin_sq_eq_half_sub (Real.pi / 12)
  rw [show 2 * (Real.pi / 12) = Real.pi / 6 by ring, Real.cos_pi_div_six,
    h] at hsq
  have h3 : Real.sqrt 3 = 7/4 := by nlinarith [hsq]
  have h9 : (Real.sqrt 3) ^ 2 = 3 := Real.sq_sqrt (by norm_num)
  rw [h3] at h9
  norm_num at h9

/-- The four grid cells of `gridC1` (spacing 30° on both axes). -/
theorem cellsC1_eq : cellsOf gridC1 30 30 =
    [(⟨-15, -30, 15, 0⟩, 0), (⟨15, -30, 45, 0⟩, 0),
     (⟨-15, 0, 15, 30⟩, 1), (⟨15, 0, 45, 30⟩, 1)] := by
  norm_num [cellsOf, cellBox, gridC1, List.enum, List.enumFrom, List.getD]

/-- Equal-area projection of the bottom-left cell of `gridC1`. -/
theorem projEA_b00 : projBox pxEA pyEA ⟨-15, -30, 15, 0⟩ =
    ⟨(-15:ℝ), -(1/2), 15, 0⟩ := by
  unfold projBox pxEA
  rw [pyEA_neg_thirty, pyEA_zero]
  norm_num

/-- Equal-area projection of the bottom-right cell of `gridC1`. -/
theorem projEA_b01 : projBox pxEA pyEA ⟨15, -30, 45, 0⟩ =
    ⟨(15:ℝ), -(1/2), 45, 0⟩ := by
  unfold projBox pxEA
  rw [pyEA_neg_thirty, pyEA_zero]
  norm_num

/-- Equal-area projection of the top-left cell of `gridC1`. -/
theorem projEA_b10 : projBox pxEA pyEA ⟨-15, 0, 15, 30⟩ =
    ⟨(-15:ℝ), 0, 15, 1/2⟩ := by
  unfold projBox pxEA
  rw [pyEA_zero, pyEA_thirty]
  norm_num

/-- Equal-area projection of the top-right cell of `gridC1`. -/
theorem projEA_b11 : projBox pxEA pyEA ⟨15, 0, 45, 30⟩ =
    ⟨(15:ℝ), 0, 45, 1/2⟩ := by
  unfold projBox pxEA
  rw [pyEA_zero, pyEA_thirty]
  norm_num

/-- Equal-area projection of the `regionC1` geometry. -/
theorem projEA_reg : projBox pxEA pyEA regionC1.geom =
    ⟨(-15:ℝ), -(1/2), 45, Real.sin (Real.pi / 12)⟩ := by
  unfold projBox pxEA
  rw [show regionC1.geom = (⟨-15, -30, 45, 15⟩ : Box) from rfl]
  rw [pyEA_neg_thirty, pyEA_fifteen]
  norm_num

/-- Every cell of `gridC1` intersects `regionC1` in the equal-area
plane. -/
theorem hallEA : ∀ c ∈ [((⟨-15, -30, 15, 0⟩ : Box), (0:ℚ)),
      (⟨15, -30, 45, 0⟩, 0), (⟨-15, 0, 15, 30⟩, 1), (⟨15, 0, 45, 30⟩, 1)],
    PBox.intersectsB (projBox pxEA pyEA c.1)
      (projBox pxEA pyEA regionC1.geom) = true := by
  intro c hc
  rw [projEA_reg]
  have hs := sin15_pos
  fin_cases hc
  · rw [projEA_b00]
    unfold PBox.intersectsB
    exact decide_eq_true
      ⟨by norm_num, by norm_num, by linarith, by norm_num⟩
  · rw [projEA_b01]
    unfold PBox.intersectsB
    exact decide_eq_true
      ⟨by norm_num, by norm_num, by linarith, by norm_num⟩
  · rw [projEA_b10]
    unfold PBox.intersectsB
    exact decide_eq_true
      ⟨by norm_num, by norm_num, by linarith, by norm_num⟩
  · rw [projEA_b11]
    unfold PBox.intersectsB
    exact decide_eq_true
      ⟨by norm_num, by norm_num, by linarith, by norm_num⟩

/-- Equal-area weight of the bottom-left cell: the whole cell lies inside
the region. -/
theorem hw00 : pInterArea (⟨(-15:ℝ), -(1/2), 15, 0⟩)
      (⟨(-15:ℝ), -(1/2), 45, Real.sin (Real.pi / 12)⟩) /
    PBox.areaP (⟨(-15:ℝ), -(1/2), 15, 0⟩) = 1 := by
  unfold pInterArea PBox.areaP
  rw [show min (0:ℝ) (Real.sin (Real.pi / 12)) = 0 from
    min_eq_left sin15_pos.le]
  norm_num

/-- Equal-area weight of the bottom-right cell. -/
theorem hw01 : pInterArea (⟨(15:ℝ), -(1/2), 45, 0⟩)
      (⟨(-15:ℝ), -(1/2), 45, Real.sin (Real.pi / 12)⟩) /
    PBox.areaP (⟨(15:ℝ), -(1/2), 45, 0⟩) = 1 := by
  unfold pInterArea PBox.areaP
  rw [show min (0:ℝ) (Real.sin (Real.pi / 12)) = 0 from
    min_eq_left sin15_pos.le]
  norm_num

/-- Equal-area weight of the top-left cell: `2·sin 15°` of it lies inside
the region (not the degree fraction 1/2). -/
theorem hw10 : pInterArea (⟨(-15:ℝ), 0, 15, 1/2⟩)
      (⟨(-15:ℝ), -(1/2), 45, Real.sin (Real.pi / 12)⟩) /
    PBox.areaP (⟨(-15:ℝ), 0, 15, 1/2⟩) =
    2 * Real.sin (Real.pi / 12) := by
  unfold pInterArea PBox.areaP
  rw [show min ((1:ℝ)/2) (Real.sin (Real.pi / 12)) =
      Real.sin (Real.pi / 12) from min_eq_right sin15_lt_half.le]
  rw [show max (0:ℝ) (-(1/2)) = 0 from by norm_num, sub_zero]
  rw [max_eq_right sin15_pos.le]
  norm_num
  ring

/-- Equal-area weight of the top-right cell. -/
theorem hw11 : pInterArea (⟨(15:ℝ), 0, 45, 1/2⟩)
      (⟨(-15:ℝ), -(1/2), 45, Real.sin (Real.pi / 12)⟩) /
    PBox.areaP (⟨(15:ℝ), 0, 45, 1/2⟩) =
    2 * Real.sin (Real.pi / 12) := by
  unfold pInterArea PBox.areaP
  rw [show min ((1:ℝ)/2) (Real.sin (Real.pi / 12)) =
      Real.sin (Real.pi / 12) from min_eq_right sin15_lt_half.le]
  rw [show max (0:ℝ) (-(1/2)) = 0 from by norm_num, sub_zero]
  rw [max_eq_right sin15_pos.le]
  norm_num
  ring

/-- The per-region step of the equal-area pipeline on the `gridC1`
scenario: the aggregated value is `4·sin 15° / (2 + 4·sin 15°)`. -/
theorem projRecEA_eval : projRegionRecord pxEA pyEA
    [((⟨-15, -30, 15, 0⟩ : Box), (0:ℚ)), (⟨15, -30, 45, 0⟩, 0),
     (⟨-15, 0, 15, 30⟩, 1), (⟨15, 0, 45, 30⟩, 1)] regionC1 =
    some ⟨0, some (4 * Real.sin (Real.pi / 12) /
      (2 + 4 * Real.sin (Real.pi / 12))), ⟨-15, -30, 45, 15⟩⟩ := by
  rw [projRegionRecord_all_intersect pxEA pyEA _ regionC1 hallEA]
  rw [if_neg (by simp)]
  simp only [List.map_cons, List.map_nil, List.sum_cons, List.sum_nil]
  rw [projEA_reg, projEA_b00, projEA_b01, projEA_b10, projEA_b11]
  rw [hw00, hw01, hw10, hw11]
  have hs := sin15_pos
  rw [if_pos (by linarith)]
  have hnum : ((0:ℚ):ℝ) * 1 + (((0:ℚ):ℝ) * 1 +
      (((1:ℚ):ℝ) * (2 * Real.sin (Real.pi / 12)) +
        (((1:ℚ):ℝ) * (2 * Real.sin (Real.pi / 12)) + 0))) =
      4 * Real.sin (Real.pi / 12) := by push_cast; ring
  have hden : (1:ℝ) + (1 + (2 * Real.sin (Real.pi / 12) +
      (2 * Real.sin (Real.pi / 12) + 0))) =
      2 + 4 * Real.sin (Real.pi / 12) := by ring
  rw [hnum, hden]
  rfl

/-- The equal-area pipeline on the `gridC1` scenario. -/
theorem joinEA_eval : joinEA gridC1 [regionC1] =
    Except.ok [⟨0, some (4 * Real.sin (Real.pi / 12) /
      (2 + 4 * Real.sin (Real.pi / 12))), ⟨-15, -30, 45, 15⟩⟩] := by
  unfold joinEA joinProj
  rw [if_neg (by norm_num [gridC1]), if_neg (by norm_num [gridC1])]
  rw [show |gridC1.lats.getD 1 0 - gridC1.lats.getD 0 0| = (30:ℚ) from
    by norm_num [gridC1, List.getD]]
  rw [show |gridC1.lons.getD 1 0 - gridC1.lons.getD 0 0| = (30:ℚ) from
    by norm_num [gridC1, List.getD]]
  dsimp only
  rw [cellsC1_eq]
  simp only [List.filterMap_cons, List.filterMap_nil, projRecEA_eval]

/-- C1 (counterexample): on the `gridC1` scenario the source aggregates
to exactly 1/3 — the geographic-degree-area weighting — while the
spec-mandated equal-area pipeline (any planar equal-area projection gives
these same weights, the area scale factor cancelling from every
`intersection_area/cell_area` ratio) aggregates to
`4·sin 15°/(2+4·sin 15°) ≈ 0.3410 ≠ 1/3`.  Hence the cells and regions
are *not* reprojected into a planar equal-area system before the areas
used for weighting are computed: the areas are taken in geographic-degree
coordinates. -/
theorem join_not_equal_area_counterexample :
    join_wbgt_to_geography gridC1 [regionC1] =
        Except.ok [⟨0, some (1/3), ⟨-15, -30, 45, 15⟩⟩] ∧
      joinEA gridC1 [regionC1] =
        Except.ok [⟨0, some (4 * Real.sin (Real.pi / 12) /
          (2 + 4 * Real.sin (Real.pi / 12))), ⟨-15, -30, 45, 15⟩⟩] ∧
      4 * Real.sin (Real.pi / 12) / (2 + 4 * Real.sin (Real.pi / 12)) ≠
        ((1:ℝ)/3) := by
  refine ⟨?_, joinEA_eval, ?_⟩
  · norm_num [join_wbgt_to_geography, regionRecord, cellsOf, cellBox,
      gridC1, regionC1, Box.intersectsB, interEmpty, interArea, Box.area,
      List.enum, List.enumFrom, List.getD, List.filter, List.foldl,
      List.filterMap, List.isEmpty]
  · intro h
    have hs := sin15_pos
    have hden : (2:ℝ) + 4 * Real.sin (Real.pi / 12) ≠ 0 := by linarith
    rw [div_eq_div_iff (by linarith) (by norm_num)] at h
    have : Real.sin (Real.pi / 12) = 1/4 := by linarith
    exact sin15_ne_quarter this

end Wbgt
